import Mathlib

/-
Verification of the dags-testing ETL pipelines.

Shallow embedding of the four Python modules:
  * quotes/quotes.py            (fetch_quote, transform_data, load_data)
  * quotes/self_confidence.py   (fetch_quote, load_to_postgres)
  * crypto_prices/crypto_prices.py
      (fetch_crypto_prices, insert_into_postgres, check_send_time, DAG wiring)
  * healthcare_joblist/healthcare.py (transform_data, load_to_postgres)

JSON values are modelled by an inductive type `JVal`; Python dictionary
access is modelled with explicit exception results (`Except Unit`):
`d.get(k)` never raises on a dict (missing key gives null), while
`d[k]` raises KeyError on a missing key and indexing a non-container
raises TypeError.  Database effects are modelled by a state-exception
monad over an explicit table/transaction state; `failAt` oracles say
which INSERT execution raises.
-/

/-- JSON values as produced by response.json() in the Python sources. -/
inductive JVal where
  | jnull : JVal
  | jbool : Bool → JVal
  | jnum  : Int → JVal
  | jstr  : String → JVal
  | jarr  : List JVal → JVal
  | jobj  : List (String × JVal) → JVal

/-- Lookup of a key in the field list of a JSON object (Python dict lookup). -/
def jlookup (fs : List (String × JVal)) (k : String) : Option JVal :=
  match fs with
  | [] => none
  | (k1, v) :: rest => if k1 = k then some v else jlookup rest k

/-- Python truthiness of a JSON value (None, 0, empty string/list/dict are falsy). -/
def truthy : JVal → Bool
  | JVal.jnull => false
  | JVal.jbool b => b
  | JVal.jnum n => n != 0
  | JVal.jstr s => !s.isEmpty
  | JVal.jarr xs => !xs.isEmpty
  | JVal.jobj fs => !fs.isEmpty

/-- Python d.get(k): on a dict a missing key yields None; on a non-dict it
raises AttributeError. -/
def dotGet (v : JVal) (k : String) : Except Unit JVal :=
  match v with
  | JVal.jobj fs => Except.ok ((jlookup fs k).getD JVal.jnull)
  | _ => Except.error ()

/-- Python d.get(k, default): like dotGet but with an explicit default. -/
def dotGetD (v : JVal) (k : String) (d : JVal) : Except Unit JVal :=
  match v with
  | JVal.jobj fs => Except.ok ((jlookup fs k).getD d)
  | _ => Except.error ()

/-- Python d[k] on a dict: KeyError when the key is missing, TypeError when
the value is not a dict. -/
def getItem (v : JVal) (k : String) : Except Unit JVal :=
  match v with
  | JVal.jobj fs =>
    match jlookup fs k with
    | some x => Except.ok x
    | none => Except.error ()
  | _ => Except.error ()

/-- Python a[i] on a list: IndexError out of range, TypeError on a non-list. -/
def getIdx (v : JVal) (i : Nat) : Except Unit JVal :=
  match v with
  | JVal.jarr xs =>
    match xs.get? i with
    | some x => Except.ok x
    | none => Except.error ()
  | _ => Except.error ()

/-- Collects a list of JSON strings, failing if some element is not a string. -/
def asStrList : List JVal → Option (List String)
  | [] => some []
  | JVal.jstr s :: rest => (asStrList rest).map (fun ss => s :: ss)
  | _ => none

/-- Python ", ".join(x): joins a list of strings (TypeError on a non-string
element), iterates a string character by character, iterates the keys of a
dict (always strings for JSON-derived dicts), and raises TypeError on the
remaining non-iterable values (null, booleans, numbers). -/
def joinComma : JVal → Except Unit String
  | JVal.jarr xs =>
    match asStrList xs with
    | some ss => Except.ok (String.intercalate ", " ss)
    | none => Except.error ()
  | JVal.jstr s =>
      Except.ok (String.intercalate ", " (s.toList.map (fun c => String.singleton c)))
  | JVal.jobj fs =>
      Except.ok (String.intercalate ", " (fs.map (fun kv => kv.1)))
  | _ => Except.error ()

/-- Result of one requests.get call: either a transport-level failure
(connection error / timeout, raising requests.RequestException) or an HTTP
response with a status code and a parsed JSON body. -/
inductive HttpResult where
  | netError : HttpResult
  | response (status : Nat) (body : JVal) : HttpResult

namespace Quotes

/-- Dictionary built by quotes.py fetch_quote from the response body. -/
structure QuoteData where
  id : JVal
  content : JVal
  author : JVal
  tags : String

/-- Field extraction of quotes.py fetch_quote (lines 23-28): id via
data.get("id") or data.get("quoteId") with Python or-semantics, author via
data.get("originator", {}).get("name", "Unknown"), tags joined to a string.
Raises (AttributeError / TypeError) when the body is not a dict, when
originator is present but not a dict, or when tags is not a list of strings. -/
def buildQuoteData (data : JVal) : Except Unit QuoteData := do
  let a ← dotGet data "id"
  let b ← dotGet data "quoteId"
  let idv := if truthy a then a else b
  let content ← dotGet data "content"
  let orig ← dotGetD data "originator" (JVal.jobj [])
  let author ← dotGetD orig "name" (JVal.jstr "Unknown")
  let tagsv ← dotGetD data "tags" (JVal.jarr [])
  let tags ← joinComma tagsv
  pure ⟨idv, content, author, tags⟩

/-- quotes.py fetch_quote (lines 8-34).  The try/except catches only
requests.RequestException: a network error or the HTTPError raised by
raise_for_status on a 4xx/5xx status is swallowed and None is returned;
errors while extracting fields from a malformed body are not caught. -/
def fetch_quote (resp : HttpResult) : Except Unit (Option QuoteData) :=
  match resp with
  | HttpResult.netError => Except.ok none
  | HttpResult.response status body =>
    if 400 ≤ status then Except.ok none
    else
      match buildQuoteData body with
      | Except.ok q => Except.ok (some q)
      | Except.error e => Except.error e

/-- quotes.py transform_data (lines 38-41): returns None when no data was
fetched, otherwise a one-row DataFrame.  It never raises. -/
def transform_data (quote_data : Option QuoteData) : Option (List QuoteData) :=
  match quote_data with
  | none => none
  | some q => some [q]

end Quotes

namespace CryptoPrices

/-- One element of the list built by fetch_crypto_prices. -/
structure CryptoRow where
  symbol : String
  price_usd : JVal
  change_24h : JVal

/-- crypto_prices.py fetch_crypto_prices (lines 22-40): a network error or a
4xx/5xx status (HTTPError from raise_for_status, a RequestException) is
re-raised as ValueError; a missing key in the body raises KeyError, which is
not a RequestException and propagates.  On success the result is the fixed
three-row list. -/
def fetch_crypto_prices (resp : HttpResult) : Except Unit (List CryptoRow) :=
  match resp with
  | HttpResult.netError => Except.error ()
  | HttpResult.response status body =>
    if 400 ≤ status then Except.error ()
    else do
      let btc ← getItem body "bitcoin"
      let busd ← getItem btc "usd"
      let bchg ← getItem btc "usd_24h_change"
      let eth ← getItem body "ethereum"
      let eusd ← getItem eth "usd"
      let echg ← getItem eth "usd_24h_change"
      let bnb ← getItem body "binancecoin"
      let nusd ← getItem bnb "usd"
      let nchg ← getItem bnb "usd_24h_change"
      pure [⟨"BTC", busd, bchg⟩, ⟨"ETH", eusd, echg⟩, ⟨"BNB", nusd, nchg⟩]

end CryptoPrices

namespace SelfConfidence

/-- self_confidence.py fetch_quote (lines 28-40): no try/except and no
raise_for_status, so a network error propagates, but any HTTP status with a
parseable JSON body is returned normally (the status is never examined) and
no key of the body is validated. -/
def fetch_quote (resp : HttpResult) : Except Unit JVal :=
  match resp with
  | HttpResult.netError => Except.error ()
  | HttpResult.response _ body => Except.ok body

end SelfConfidence

namespace Healthcare

/-- Flat record built by healthcare.py transform_data for one job listing.
The two fields produced by ", ".join are strings; all others hold the raw
JSON value (or null). -/
structure HealthRecord where
  id : JVal
  date_posted : JVal
  title : JVal
  organization : JVal
  organization_url : JVal
  date_validthrough : JVal
  location_country : JVal
  location_locality : JVal
  latitude : JVal
  longitude : JVal
  employment_type : String
  url : JVal
  linkedin_org_employees : JVal
  linkedin_org_size : JVal
  linkedin_org_industry : JVal
  linkedin_org_locations : String
  seniority : JVal

/-- Python expression item["locations_raw"][0]["address"][k] if
item.get("locations_raw") else None (healthcare.py lines 84-85).  When the
locations array is absent or falsy the field is null; when it is present the
chain uses direct indexing, so a missing "address" key raises KeyError. -/
def locField (item : JVal) (k : String) : Except Unit JVal := do
  let locs ← dotGet item "locations_raw"
  if truthy locs then do
    let lr ← getItem item "locations_raw"
    let l0 ← getIdx lr 0
    let addr ← getItem l0 "address"
    getItem addr k
  else pure JVal.jnull

/-- Python expression item["locations_raw"][0].get(k) if
item.get("locations_raw") else None (healthcare.py lines 86-87): latitude
and longitude use safe .get on the first location. -/
def locGeo (item : JVal) (k : String) : Except Unit JVal := do
  let locs ← dotGet item "locations_raw"
  if truthy locs then do
    let lr ← getItem item "locations_raw"
    let l0 ← getIdx lr 0
    dotGet l0 k
  else pure JVal.jnull

/-- Body of the per-record try of healthcare.py transform_data (lines 76-96):
builds the flat record dict in source order; any exception makes the record
malformed (it is then logged and skipped by the surrounding except/continue). -/
def flatten_record (item : JVal) : Except Unit HealthRecord := do
  let idv ← dotGet item "id"
  let date_posted ← dotGet item "date_posted"
  let title ← dotGet item "title"
  let organization ← dotGet item "organization"
  let organization_url ← dotGet item "organization_url"
  let date_validthrough ← dotGet item "date_validthrough"
  let location_country ← locField item "addressCountry"
  let location_locality ← locField item "addressLocality"
  let latitude ← locGeo item "latitude"
  let longitude ← locGeo item "longitude"
  let etv ← dotGetD item "employment_type" (JVal.jarr [])
  let employment_type ← joinComma etv
  let url ← dotGet item "url"
  let linkedin_org_employees ← dotGet item "linkedin_org_employees"
  let linkedin_org_size ← dotGet item "linkedin_org_size"
  let linkedin_org_industry ← dotGet item "linkedin_org_industry"
  let lolv ← dotGetD item "linkedin_org_locations" (JVal.jarr [])
  let linkedin_org_locations ← joinComma lolv
  let seniority ← dotGet item "seniority"
  pure ⟨idv, date_posted, title, organization, organization_url,
        date_validthrough, location_country, location_locality, latitude,
        longitude, employment_type, url, linkedin_org_employees,
        linkedin_org_size, linkedin_org_industry, linkedin_org_locations,
        seniority⟩

/-- healthcare.py transform_data (lines 59-113): raises ValueError when the
raw data is not a non-empty list; flattens each item, skipping records whose
flattening raises; raises ValueError when no record survives. -/
def transform_data (raw_data : JVal) : Except Unit (List HealthRecord) :=
  match raw_data with
  | JVal.jarr items =>
    if items.isEmpty then Except.error ()
    else
      let flattened := items.filterMap (fun it => (flatten_record it).toOption)
      if flattened.isEmpty then Except.error ()
      else Except.ok flattened
  | _ => Except.error ()

end Healthcare

/-
Database model.  A loader invocation operates on a state holding the
committed table, the uncommitted rows of the open transaction, whether the
connection is currently open, whether this invocation reached COMMIT, and
the list of rows for which an INSERT statement execution was attempted.
psycopg2 connections start with autocommit off, so rows become visible in
the table only at commit; pending rows of a never-committed transaction are
discarded (the server rolls the transaction back when the connection dies).
-/

/-- State of the relational sink as seen by one loader invocation. -/
structure PG (ρ : Type) where
  table : List ρ
  pending : List ρ
  connOpen : Bool
  didCommit : Bool
  trace : List ρ

/-- State-exception monad for the loader bodies: Python exceptions are the
error component, the database state is threaded through in both cases. -/
def DbM (σ α : Type) : Type := σ → Except Unit α × σ

/-- Do-nothing step. -/
def dbPure : DbM σ Unit := fun s => (Except.ok (), s)

/-- Sequencing of two statements: the second runs only when the first did
not raise. -/
def dbSeq (x : DbM σ Unit) (y : DbM σ α) : DbM σ α := fun s =>
  match x s with
  | (Except.ok _, s1) => y s1
  | (Except.error e, s1) => (Except.error e, s1)

/-- Python raise: propagate an exception, leaving the state unchanged. -/
def raiseDb : DbM σ α := fun s => (Except.error (), s)

/-- Python try/except Exception: the handler runs on any exception of the
body; its result replaces the exception. -/
def dbTryCatch (x handler : DbM σ α) : DbM σ α := fun s =>
  match x s with
  | (Except.ok a, s1) => (Except.ok a, s1)
  | (Except.error _, s1) => handler s1

/-- Python try/finally: the finaliser runs on both exits; the outcome of
the body is re-raised or returned afterwards. -/
def dbTryFinally (x : DbM σ α) (fin : DbM σ Unit) : DbM σ α := fun s =>
  match x s with
  | (Except.ok a, s1) =>
      (match fin s1 with
       | (Except.ok _, s2) => (Except.ok a, s2)
       | (Except.error e, s2) => (Except.error e, s2))
  | (Except.error e, s1) =>
      (match fin s1 with
       | (Except.ok _, s2) => (Except.error e, s2)
       | (Except.error e2, s2) => (Except.error e2, s2))

/-- psycopg2.connect / PostgresHook.get_conn: opens the connection. -/
def connectDb : DbM (PG ρ) Unit := fun s =>
  (Except.ok (), { s with connOpen := true })

/-- connection.commit(): the pending rows become part of the table. -/
def commitDb : DbM (PG ρ) Unit := fun s =>
  (Except.ok (), { s with table := s.table ++ s.pending, pending := [],
                          didCommit := true })

/-- connection.rollback(): the pending rows are discarded. -/
def rollbackDb : DbM (PG ρ) Unit := fun s =>
  (Except.ok (), { s with pending := [] })

/-- connection.close(): releases the connection; an uncommitted transaction
is rolled back by the server. -/
def closeDb : DbM (PG ρ) Unit := fun s =>
  (Except.ok (), { s with connOpen := false, pending := [] })

/-- cursor.execute of a plain INSERT: the attempt is recorded in the trace;
when the oracle says this execution fails it raises, otherwise the row joins
the open transaction. -/
def execInsert (r : ρ) (fails : Bool) : DbM (PG ρ) Unit := fun s =>
  if fails then (Except.error (), { s with trace := s.trace ++ [r] })
  else (Except.ok (), { s with pending := s.pending ++ [r],
                               trace := s.trace ++ [r] })

/-- Loop executing one plain INSERT per row (crypto_prices.py lines 57-58,
healthcare.py execute_batch line 148 which issues the statement once per
tuple).  idx counts executed statements; failAt marks the one that raises. -/
def plainLoop (rows : List ρ) (idx : Nat) (failAt : Option Nat) :
    DbM (PG ρ) Unit :=
  match rows with
  | [] => dbPure
  | r :: rest =>
      dbSeq (execInsert r (decide (failAt = some idx)))
            (plainLoop rest (idx + 1) failAt)

/-- Fresh per-invocation state over an existing committed table: no open
transaction, no connection, nothing executed yet. -/
def freshPG (table : List ρ) : PG ρ := ⟨table, [], false, false, []⟩

namespace Quotes

/-- One row of the quotes DataFrame as iterated by load_data: the id may be
None (fetch_quote stores data.get("id") or data.get("quoteId")). -/
structure QuoteIn where
  id : Option Int
  content : String
  author : String
  tags : String

/-- One committed row of the quotes table (id BIGINT PRIMARY KEY). -/
structure QuoteRow where
  id : Int
  content : String
  author : String
  tags : String

/-- Rows of the batch that load_data actually inserts: those whose id is not
None, with the id unwrapped. -/
def validRows (rows : List QuoteIn) : List QuoteRow :=
  rows.filterMap (fun r => r.id.map (fun n => ⟨n, r.content, r.author, r.tags⟩))

/-- cursor.execute of INSERT ... ON CONFLICT (id) DO NOTHING: the attempt is
traced; within the transaction the row is visible in table ++ pending, so
the conflict check runs against both; a conflicting id leaves the state
unchanged instead of raising. -/
def execConflictInsert (r : QuoteRow) (fails : Bool) :
    DbM (PG QuoteRow) Unit := fun s =>
  if fails then (Except.error (), { s with trace := s.trace ++ [r] })
  else if (s.table ++ s.pending).any (fun q => q.id == r.id) then
    (Except.ok (), { s with trace := s.trace ++ [r] })
  else
    (Except.ok (), { s with pending := s.pending ++ [r],
                            trace := s.trace ++ [r] })

/-- The for-loop of quotes.py load_data (lines 101-106): rows with a None id
are skipped (no INSERT is executed for them), the others are inserted with
the conflict clause.  idx counts executed INSERT statements only. -/
def loadLoop (rows : List QuoteIn) (idx : Nat) (failAt : Option Nat) :
    DbM (PG QuoteRow) Unit :=
  match rows with
  | [] => dbPure
  | r :: rest =>
    match r.id with
    | some n =>
        dbSeq (execConflictInsert ⟨n, r.content, r.author, r.tags⟩
                 (decide (failAt = some idx)))
              (loadLoop rest (idx + 1) failAt)
    | none => loadLoop rest idx failAt

/-- quotes.py load_data (lines 45-117).  An empty or absent DataFrame
returns at once without touching the database.  Otherwise: connect, then
inside try: CREATE TABLE IF NOT EXISTS and the DO-block ALTER (row-free DDL,
modelled as no-ops), the insert loop, commit; except Exception: rollback
(the exception is swallowed, not re-raised); finally: close the cursor and
the connection. -/
def load_data (df : Option (List QuoteIn)) (failAt : Option Nat) :
    DbM (PG QuoteRow) Unit :=
  match df with
  | none => dbPure
  | some rows =>
    if rows.isEmpty then dbPure
    else
      dbSeq connectDb
        (dbTryFinally
          (dbTryCatch
            (dbSeq (loadLoop rows 0 failAt) commitDb)
            rollbackDb)
          closeDb)

/-- One load_data invocation started on a fresh connection over a given
committed table. -/
def runLoad (table : List QuoteRow) (df : Option (List QuoteIn))
    (failAt : Option Nat) : Except Unit Unit × PG QuoteRow :=
  load_data df failAt (freshPG table)

end Quotes

namespace CryptoPrices

/-- One committed row of the crypto_prices table: the three payload fields
plus the server-generated NOW() timestamp. -/
structure CryptoSinkRow where
  symbol : String
  price_usd : JVal
  change_24h : JVal
  ts : Nat

/-- Row as written by the INSERT with VALUES (%s, %s, %s, NOW()): the
payload of the fetched row stamped with the clock of the transaction. -/
def stampRow (now : Nat) (r : CryptoRow) : CryptoSinkRow :=
  ⟨r.symbol, r.price_usd, r.change_24h, now⟩

/-- crypto_prices.py insert_into_postgres (lines 42-62).  Raises ValueError
when no data arrived from the fetch task.  Otherwise: connect, execute one
plain INSERT per row (the loop is the stamped-row plainLoop), commit, close
cursor and connection.  There is no try/except/finally: an exception in the
loop propagates and the connection is never closed on that path. -/
def insert_into_postgres (crypto_data : List CryptoRow) (now : Nat)
    (failAt : Option Nat) : DbM (PG CryptoSinkRow) Unit :=
  if crypto_data.isEmpty then raiseDb
  else
    dbSeq connectDb
      (dbSeq (plainLoop (crypto_data.map (stampRow now)) 0 failAt)
        (dbSeq commitDb closeDb))

/-- One insert_into_postgres invocation on a fresh connection state. -/
def runInsert (table : List CryptoSinkRow) (crypto_data : List CryptoRow)
    (now : Nat) (failAt : Option Nat) :
    Except Unit Unit × PG CryptoSinkRow :=
  insert_into_postgres crypto_data now failAt (freshPG table)

end CryptoPrices

namespace Healthcare

/-- healthcare.py load_to_postgres (lines 115-159).  Inside try: connect,
execute_batch issues the INSERT once per tuple, commit; except Exception:
conn.rollback() then re-raise; finally: close cursor and connection. -/
def load_to_postgres (df : List HealthRecord) (failAt : Option Nat) :
    DbM (PG HealthRecord) Unit :=
  dbTryFinally
    (dbTryCatch
      (dbSeq connectDb (dbSeq (plainLoop df 0 failAt) commitDb))
      (dbSeq rollbackDb raiseDb))
    closeDb

/-- One load_to_postgres invocation on a fresh connection state. -/
def runLoad (table : List HealthRecord) (df : List HealthRecord)
    (failAt : Option Nat) : Except Unit Unit × PG HealthRecord :=
  load_to_postgres df failAt (freshPG table)

end Healthcare

namespace SelfConfidence

/-- One committed row of the self_confidence table, ignoring the SERIAL
surrogate key (the position of the row in the table plays that role). -/
structure SCRow where
  quote : JVal
  author : JVal
  qtype : JVal

/-- Evaluation of the INSERT parameters for the quote, author and type
keys (self_confidence.py lines 118-121): direct indexing, so a
missing key raises KeyError. -/
def scParams (data : JVal) : Except Unit SCRow := do
  let q ← getItem data "quote"
  let a ← getItem data "author"
  let t ← getItem data "type"
  pure ⟨q, a, t⟩

/-- self_confidence.py load_to_postgres (lines 96-125): connect, CREATE
TABLE IF NOT EXISTS (row-free DDL, modelled as a no-op), evaluate the INSERT
parameters (raising KeyError after the connection is open when a key is
missing), execute the plain INSERT, commit, close.  No try/except/finally. -/
def load_to_postgres (data : JVal) (failIns : Bool) : DbM (PG SCRow) Unit :=
  dbSeq connectDb
    (match scParams data with
     | Except.ok r => dbSeq (execInsert r failIns) (dbSeq commitDb closeDb)
     | Except.error _ => raiseDb)

/-- One load_to_postgres invocation on a fresh connection state. -/
def runLoad (table : List SCRow) (data : JVal) (failIns : Bool) :
    Except Unit Unit × PG SCRow :=
  load_to_postgres data failIns (freshPG table)

end SelfConfidence

namespace CryptoPrices

/-- Python datetime as far as the gate is concerned. -/
structure PyDateTime where
  year : Nat
  month : Nat
  day : Nat
  hour : Nat
  minute : Nat

/-- Execution context supplied to a task: the logical timestamp of the Run from
the scheduler, and the ambient wall-clock time at which the task body
happens to execute.  The gate receives only kwargs, which carry the logical
date; the wall clock is listed to state independence from it. -/
structure AirflowContext where
  logical_date : PyDateTime
  wall_clock : PyDateTime

/-- crypto_prices.py check_send_time (lines 104-107): reads
the logical_date entry of kwargs and compares its hour with 8.  It never consults the
wall clock. -/
def check_send_time (kwargs : AirflowContext) : Bool :=
  kwargs.logical_date.hour == 8

/-- Terminal state of a task within one Run. -/
inductive TaskState where
  | Succeeded : TaskState
  | Failed : TaskState
  | Skipped : TaskState
deriving DecidableEq

/-- Per-Run outcome of the four tasks of crypto_price_dag, with the number
of attempts made on the send_email task. -/
structure CryptoDagRun where
  fetchState : TaskState
  insertState : TaskState
  checkTimeState : TaskState
  sendEmailState : TaskState
  sendEmailAttempts : Nat

/-- Modelled from the spec: the Airflow executor and ShortCircuitOperator
semantics are not part of the sources of this repository; only the DAG wiring
(crypto_prices.py lines 109-144: fetch >> [insert, check_time],
insert >> check_time, check_time >> send_email, default retries = 1) is.
Per spec section 4.6 a task runs when all upstreams Succeeded and is
Skipped when an upstream is terminal Failed; per section 4.5 a false gate
makes exclusively-gated downstream tasks Skipped, never executed; a task
whose action always fails is attempted retries + 1 times.  The Booleans say
whether the action of each task succeeds when it is actually executed. -/
def runCryptoDag (ctx : AirflowContext) (fetchOk insertOk emailOk : Bool) :
    CryptoDagRun :=
  let fetchSt := if fetchOk then TaskState.Succeeded else TaskState.Failed
  let insertSt :=
    if fetchSt = TaskState.Succeeded then
      (if insertOk then TaskState.Succeeded else TaskState.Failed)
    else TaskState.Skipped
  let gateSt :=
    if fetchSt = TaskState.Succeeded ∧ insertSt = TaskState.Succeeded then
      TaskState.Succeeded
    else TaskState.Skipped
  let gatePassed := gateSt = TaskState.Succeeded ∧ check_send_time ctx = true
  let emailSt :=
    if gatePassed then
      (if emailOk then TaskState.Succeeded else TaskState.Failed)
    else TaskState.Skipped
  let emailAttempts := if gatePassed then (if emailOk then 1 else 2) else 0
  ⟨fetchSt, insertSt, gateSt, emailSt, emailAttempts⟩

end CryptoPrices


/-
Execution lemmas: how each loader transforms the database state, for a
successful run and for a run whose i-th INSERT execution raises.
-/

theorem plainLoop_none {ρ : Type} (rows : List ρ) :
    ∀ (idx : Nat) (tb pd : List ρ) (co dc : Bool) (tr : List ρ),
    plainLoop rows idx none ⟨tb, pd, co, dc, tr⟩ =
      (Except.ok (), ⟨tb, pd ++ rows, co, dc, tr ++ rows⟩) := by
  induction rows with
  | nil => intro idx tb pd co dc tr; simp [plainLoop, dbPure]
  | cons r rest ih =>
    intro idx tb pd co dc tr
    simp [plainLoop, dbSeq, execInsert, ih]

theorem plainLoop_fail {ρ : Type} (rows : List ρ) :
    ∀ (idx i : Nat) (tb pd : List ρ) (co dc : Bool) (tr : List ρ),
      idx ≤ i → i < idx + rows.length →
    ∃ p t2, plainLoop rows idx (some i) ⟨tb, pd, co, dc, tr⟩ =
      (Except.error (), ⟨tb, p, co, dc, t2⟩) := by
  induction rows with
  | nil => intro idx i tb pd co dc tr hle hlt; simp at hlt; omega
  | cons r rest ih =>
    intro idx i tb pd co dc tr hle hlt
    by_cases hi : i = idx
    · subst hi
      exact ⟨pd, tr ++ [r], by simp [plainLoop, dbSeq, execInsert]⟩
    · have h1 : idx + 1 ≤ i := by omega
      have h2 : i < (idx + 1) + rest.length := by simp at hlt; omega
      obtain ⟨p, t2, hp⟩ := ih (idx + 1) i tb (pd ++ [r]) co dc (tr ++ [r]) h1 h2
      exact ⟨p, t2, by simp [plainLoop, dbSeq, execInsert, hi, hp]⟩

namespace CryptoPrices

theorem runInsert_none (table : List CryptoSinkRow) (batch : List CryptoRow)
    (now : Nat) (h : batch ≠ []) :
    runInsert table batch now none =
      (Except.ok (), ⟨table ++ batch.map (stampRow now), [], false, true,
        batch.map (stampRow now)⟩) := by
  have hne : batch.isEmpty = false := by
    cases batch with
    | nil => exact absurd rfl h
    | cons a l => rfl
  simp [runInsert, insert_into_postgres, hne, dbSeq, connectDb, freshPG,
        plainLoop_none, commitDb, closeDb]

theorem runInsert_some (table : List CryptoSinkRow) (batch : List CryptoRow)
    (now i : Nat) (h : i < batch.length) :
    ∃ p t2, runInsert table batch now (some i) =
      (Except.error (), ⟨table, p, true, false, t2⟩) := by
  have hne : batch.isEmpty = false := by
    cases batch with
    | nil => simp at h
    | cons a l => rfl
  obtain ⟨p, t2, hp⟩ := plainLoop_fail (batch.map (stampRow now)) 0 i
    table [] true false [] (Nat.zero_le i) (by simpa using h)
  exact ⟨p, t2, by
    simp [runInsert, insert_into_postgres, hne, dbSeq, connectDb, freshPG, hp]⟩

end CryptoPrices

namespace Healthcare

theorem runLoad_none (table df : List HealthRecord) :
    runLoad table df none =
      (Except.ok (), ⟨table ++ df, [], false, true, df⟩) := by
  simp [runLoad, load_to_postgres, dbTryFinally, dbTryCatch, dbSeq,
        connectDb, freshPG, plainLoop_none, commitDb, closeDb]

theorem runLoad_some (table df : List HealthRecord) (i : Nat)
    (h : i < df.length) :
    ∃ t2, runLoad table df (some i) =
      (Except.error (), ⟨table, [], false, false, t2⟩) := by
  obtain ⟨p, t2, hp⟩ := plainLoop_fail df 0 i table [] true false []
    (Nat.zero_le i) (by simpa using h)
  exact ⟨t2, by
    simp [runLoad, load_to_postgres, dbTryFinally, dbTryCatch, dbSeq,
          connectDb, freshPG, hp, rollbackDb, raiseDb, closeDb]⟩

end Healthcare

namespace SelfConfidence

theorem scLoad_ok (table : List SCRow) (q a t : JVal) :
    runLoad table (JVal.jobj [("quote", q), ("author", a), ("type", t)]) false =
      (Except.ok (), ⟨table ++ [⟨q, a, t⟩], [], false, true, [⟨q, a, t⟩]⟩) := by
  simp [runLoad, load_to_postgres, scParams, getItem, jlookup, dbSeq,
        connectDb, freshPG, execInsert, commitDb, closeDb, Bind.bind,
        Except.bind, Pure.pure, Except.pure]

end SelfConfidence

namespace Quotes

/-- Effect of one INSERT ... ON CONFLICT (id) DO NOTHING on the rows visible
inside the transaction. -/
def upsert (t : List QuoteRow) (r : QuoteRow) : List QuoteRow :=
  if t.any (fun q => q.id == r.id) then t else t ++ [r]

/-- Effect of a batch of conflict-ignoring INSERTs, in order. -/
def upsertList (t : List QuoteRow) (rs : List QuoteRow) : List QuoteRow :=
  rs.foldl upsert t

/-- Whether the table holds a row with the given id. -/
def hasId (t : List QuoteRow) (n : Int) : Bool :=
  t.any (fun q => q.id == n)

/-- Number of rows of the table carrying the given id. -/
def countId (t : List QuoteRow) (n : Int) : Nat :=
  t.countP (fun q => q.id == n)

theorem validRows_cons_none (r : QuoteIn) (rest : List QuoteIn)
    (h : r.id = none) : validRows (r :: rest) = validRows rest := by
  simp [validRows, List.filterMap_cons, h]

theorem validRows_cons_some (r : QuoteIn) (rest : List QuoteIn) (n : Int)
    (h : r.id = some n) :
    validRows (r :: rest) =
      ⟨n, r.content, r.author, r.tags⟩ :: validRows rest := by
  simp [validRows, List.filterMap_cons, h]

theorem upsertList_cons (t : List QuoteRow) (r : QuoteRow)
    (rs : List QuoteRow) : upsertList t (r :: rs) = upsertList (upsert t r) rs :=
  rfl

theorem loadLoop_none (rows : List QuoteIn) :
    ∀ (idx : Nat) (tb pd : List QuoteRow) (co dc : Bool) (tr : List QuoteRow),
    ∃ p, loadLoop rows idx none ⟨tb, pd, co, dc, tr⟩ =
        (Except.ok (), ⟨tb, p, co, dc, tr ++ validRows rows⟩) ∧
      tb ++ p = upsertList (tb ++ pd) (validRows rows) := by
  induction rows with
  | nil =>
    intro idx tb pd co dc tr
    exact ⟨pd, by simp [loadLoop, dbPure, validRows], rfl⟩
  | cons r rest ih =>
    intro idx tb pd co dc tr
    cases hid : r.id with
    | none =>
      obtain ⟨p, h1, h2⟩ := ih idx tb pd co dc tr
      exact ⟨p, by simp [loadLoop, hid, h1, validRows_cons_none r rest hid],
        by rw [validRows_cons_none r rest hid]; exact h2⟩
    | some n =>
      by_cases hany :
          (tb ++ pd).any
            (fun q => q.id == (⟨n, r.content, r.author, r.tags⟩ : QuoteRow).id)
            = true
      · obtain ⟨p, h1, h2⟩ := ih (idx + 1) tb pd co dc
          (tr ++ [⟨n, r.content, r.author, r.tags⟩])
        refine ⟨p, ?_, ?_⟩
        · simp [loadLoop, hid, dbSeq, execConflictInsert, hany, h1,
                validRows_cons_some r rest n hid]
        · rw [validRows_cons_some r rest n hid, upsertList_cons]
          have hups : upsert (tb ++ pd) ⟨n, r.content, r.author, r.tags⟩ =
              tb ++ pd := by simp [upsert, hany]
          rw [hups]; exact h2
      · obtain ⟨p, h1, h2⟩ := ih (idx + 1) tb
          (pd ++ [⟨n, r.content, r.author, r.tags⟩]) co dc
          (tr ++ [⟨n, r.content, r.author, r.tags⟩])
        refine ⟨p, ?_, ?_⟩
        · simp [loadLoop, hid, dbSeq, execConflictInsert, hany, h1,
                validRows_cons_some r rest n hid]
        · rw [validRows_cons_some r rest n hid, upsertList_cons]
          have hups : upsert (tb ++ pd) ⟨n, r.content, r.author, r.tags⟩ =
              tb ++ (pd ++ [⟨n, r.content, r.author, r.tags⟩]) := by
            simp [upsert, hany]
          rw [hups]; exact h2

theorem loadLoop_fail (rows : List QuoteIn) :
    ∀ (idx i : Nat) (tb pd : List QuoteRow) (co dc : Bool)
      (tr : List QuoteRow),
      idx ≤ i → i < idx + (validRows rows).length →
    ∃ p t2, loadLoop rows idx (some i) ⟨tb, pd, co, dc, tr⟩ =
      (Except.error (), ⟨tb, p, co, dc, t2⟩) := by
  induction rows with
  | nil =>
    intro idx i tb pd co dc tr hle hlt
    simp [validRows] at hlt; omega
  | cons r rest ih =>
    intro idx i tb pd co dc tr hle hlt
    cases hid : r.id with
    | none =>
      rw [validRows_cons_none r rest hid] at hlt
      obtain ⟨p, t2, hp⟩ := ih idx i tb pd co dc tr hle hlt
      exact ⟨p, t2, by simp [loadLoop, hid, hp]⟩
    | some n =>
      by_cases hi : i = idx
      · subst hi
        exact ⟨pd, tr ++ [⟨n, r.content, r.author, r.tags⟩],
          by simp [loadLoop, hid, dbSeq, execConflictInsert]⟩
      · rw [validRows_cons_some r rest n hid] at hlt
        have h1 : idx + 1 ≤ i := by omega
        have h2 : i < (idx + 1) + (validRows rest).length := by
          simp at hlt; omega
        by_cases hany :
            (tb ++ pd).any
              (fun q => q.id == (⟨n, r.content, r.author, r.tags⟩ : QuoteRow).id)
              = true
        · obtain ⟨p, t2, hp⟩ := ih (idx + 1) i tb pd co dc
            (tr ++ [⟨n, r.content, r.author, r.tags⟩]) h1 h2
          exact ⟨p, t2,
            by simp [loadLoop, hid, dbSeq, execConflictInsert, hi, hany, hp]⟩
        · obtain ⟨p, t2, hp⟩ := ih (idx + 1) i tb
            (pd ++ [⟨n, r.content, r.author, r.tags⟩]) co dc
            (tr ++ [⟨n, r.content, r.author, r.tags⟩]) h1 h2
          exact ⟨p, t2,
            by simp [loadLoop, hid, dbSeq, execConflictInsert, hi, hany, hp]⟩

end Quotes

namespace Quotes

theorem runLoad_ok (table : List QuoteRow) (rows : List QuoteIn)
    (h : rows ≠ []) :
    runLoad table (some rows) none =
      (Except.ok (), ⟨upsertList table (validRows rows), [], false, true,
        validRows rows⟩) := by
  have hne : rows.isEmpty = false := by
    cases rows with
    | nil => exact absurd rfl h
    | cons a l => rfl
  obtain ⟨p, h1, h2⟩ := loadLoop_none rows 0 table [] true false []
  have h2' : table ++ p = upsertList table (validRows rows) := by
    simpa using h2
  simp [runLoad, load_data, hne, dbSeq, connectDb, freshPG, dbTryFinally,
        dbTryCatch, h1, commitDb, closeDb, h2']

theorem runLoad_fail (table : List QuoteRow) (rows : List QuoteIn) (i : Nat)
    (h : i < (validRows rows).length) :
    ∃ t2, runLoad table (some rows) (some i) =
      (Except.ok (), ⟨table, [], false, false, t2⟩) := by
  have hne : rows.isEmpty = false := by
    cases rows with
    | nil => simp [validRows] at h
    | cons a l => rfl
  obtain ⟨p, t2, hp⟩ := loadLoop_fail rows 0 i table [] true false []
    (Nat.zero_le i) (by simpa using h)
  exact ⟨t2, by
    simp [runLoad, load_data, hne, dbSeq, connectDb, freshPG, dbTryFinally,
          dbTryCatch, hp, rollbackDb, closeDb]⟩

theorem hasId_append (t1 t2 : List QuoteRow) (n : Int) :
    hasId (t1 ++ t2) n = (hasId t1 n || hasId t2 n) := by
  simp [hasId]

theorem upsert_of_hasId (t : List QuoteRow) (r : QuoteRow)
    (h : hasId t r.id = true) : upsert t r = t := by
  have h' : t.any (fun q => q.id == r.id) = true := h
  simp [upsert, h']

theorem hasId_upsert_self (t : List QuoteRow) (r : QuoteRow) :
    hasId (upsert t r) r.id = true := by
  by_cases h : t.any (fun q => q.id == r.id) = true
  · have hu : upsert t r = t := by simp [upsert, h]
    rw [hu]; exact h
  · have hu : upsert t r = t ++ [r] := by simp [upsert, h]
    have hr : hasId [r] r.id = true := by simp [hasId]
    rw [hu, hasId_append, hr]
    simp

theorem hasId_upsert_mono (t : List QuoteRow) (r : QuoteRow) (n : Int)
    (h : hasId t n = true) : hasId (upsert t r) n = true := by
  by_cases hc : t.any (fun q => q.id == r.id) = true
  · have hu : upsert t r = t := by simp [upsert, hc]
    rw [hu]; exact h
  · have hu : upsert t r = t ++ [r] := by simp [upsert, hc]
    rw [hu, hasId_append, h]
    simp

theorem hasId_upsertList_mono (rs : List QuoteRow) :
    ∀ (t : List QuoteRow) (n : Int), hasId t n = true →
      hasId (upsertList t rs) n = true := by
  induction rs with
  | nil => intro t n h; exact h
  | cons r rest ih =>
    intro t n h
    rw [upsertList_cons]
    exact ih (upsert t r) n (hasId_upsert_mono t r n h)

theorem hasId_upsertList_of_mem (rs : List QuoteRow) :
    ∀ (t : List QuoteRow) (r : QuoteRow), r ∈ rs →
      hasId (upsertList t rs) r.id = true := by
  induction rs with
  | nil => intro t r h; cases h
  | cons a rest ih =>
    intro t r h
    rw [upsertList_cons]
    cases h with
    | head =>
      exact hasId_upsertList_mono rest (upsert t a) a.id
        (hasId_upsert_self t a)
    | tail _ hmem => exact ih (upsert t a) r hmem

theorem upsertList_of_all_hasId (rs : List QuoteRow) :
    ∀ (t : List QuoteRow), (∀ r ∈ rs, hasId t r.id = true) →
      upsertList t rs = t := by
  induction rs with
  | nil => intro t _; rfl
  | cons a rest ih =>
    intro t h
    rw [upsertList_cons, upsert_of_hasId t a (h a (List.mem_cons_self a rest))]
    exact ih t (fun r hr => h r (List.mem_cons_of_mem a hr))

theorem upsertList_idem (t : List QuoteRow) (rs : List QuoteRow) :
    upsertList (upsertList t rs) rs = upsertList t rs :=
  upsertList_of_all_hasId rs (upsertList t rs)
    (fun r hr => hasId_upsertList_of_mem rs t r hr)

theorem countId_append (t1 t2 : List QuoteRow) (n : Int) :
    countId (t1 ++ t2) n = countId t1 n + countId t2 n := by
  simp [countId, List.countP_append]

theorem countId_upsert_le_one (t : List QuoteRow) (r : QuoteRow)
    (h : ∀ m, countId t m ≤ 1) : ∀ m, countId (upsert t r) m ≤ 1 := by
  intro m
  by_cases hc : t.any (fun q => q.id == r.id) = true
  · have hu : upsert t r = t := by simp [upsert, hc]
    rw [hu]; exact h m
  · have hu : upsert t r = t ++ [r] := by simp [upsert, hc]
    rw [hu, countId_append]
    by_cases hm : (r.id == m) = true
    · have hid : r.id = m := by simpa using hm
      have hzero : countId t m = 0 := by
        rw [countId, List.countP_eq_zero]
        intro q hq
        have hq2 := (List.any_eq_false
          (p := fun q => q.id == r.id) (l := t)).mp
          (by simpa using hc) q hq
        simpa [hid] using hq2
      have hone : countId [r] m = 1 := by
        simp [countId, List.countP_cons, hm]
      omega
    · have hzero : countId [r] m = 0 := by
        simp [countId, List.countP_cons, hm]
      have := h m
      omega

theorem countId_upsertList_le_one (rs : List QuoteRow) :
    ∀ (t : List QuoteRow), (∀ m, countId t m ≤ 1) →
      ∀ m, countId (upsertList t rs) m ≤ 1 := by
  induction rs with
  | nil => intro t h m; exact h m
  | cons a rest ih =>
    intro t h m
    rw [upsertList_cons]
    exact ih (upsert t a) (countId_upsert_le_one t a h) m

theorem one_le_countId_of_hasId (t : List QuoteRow) (n : Int)
    (h : hasId t n = true) : 1 ≤ countId t n := by
  rw [countId]
  rw [hasId, List.any_eq_true] at h
  obtain ⟨q, hq, hid⟩ := h
  exact List.countP_pos_iff.mpr ⟨q, hq, hid⟩

end Quotes

/-
Claim theorems.
-/

/-- C5: gate determinism.  check_send_time computes its Boolean from the
logical timestamp of the Run alone; two executions sharing a logical timestamp
but happening at different wall-clock times return the same Boolean. -/
theorem C5_gate_deterministic (t w1 w2 : CryptoPrices.PyDateTime) :
    CryptoPrices.check_send_time ⟨t, w1⟩ = CryptoPrices.check_send_time ⟨t, w2⟩ :=
  rfl

/-- C6: for a Run whose gate evaluates to false (logical hour is not 8) the
send_email task is Skipped: its action is attempted zero times, so it is
not run, not retried and not marked Failed, whatever the other tasks do. -/
theorem C6_gate_false_skips_email (ctx : CryptoPrices.AirflowContext)
    (fetchOk insertOk emailOk : Bool)
    (h : CryptoPrices.check_send_time ctx = false) :
    (CryptoPrices.runCryptoDag ctx fetchOk insertOk emailOk).sendEmailState =
        CryptoPrices.TaskState.Skipped ∧
      (CryptoPrices.runCryptoDag ctx fetchOk insertOk emailOk).sendEmailAttempts
        = 0 := by
  unfold CryptoPrices.runCryptoDag
  simp [h]

/-- C6 witness: a concrete Run at logical hour 7 with all actions healthy. -/
theorem C6_gate_false_skips_email_witness :
    CryptoPrices.check_send_time ⟨⟨2025, 1, 1, 7, 0⟩, ⟨2025, 1, 1, 8, 30⟩⟩
        = false ∧
      ((CryptoPrices.runCryptoDag ⟨⟨2025, 1, 1, 7, 0⟩, ⟨2025, 1, 1, 8, 30⟩⟩
            true true true).sendEmailState = CryptoPrices.TaskState.Skipped ∧
        (CryptoPrices.runCryptoDag ⟨⟨2025, 1, 1, 7, 0⟩, ⟨2025, 1, 1, 8, 30⟩⟩
            true true true).sendEmailAttempts = 0) :=
  ⟨by decide, C6_gate_false_skips_email _ true true true (by decide)⟩

/-- C2: keyed-entity idempotency of quotes.py load_data.  From a table with
at most one row per id, one load succeeds, a second load of the same batch
succeeds, changes nothing, and every id of the batch ends up stored exactly
once (INSERT ... ON CONFLICT (id) DO NOTHING). -/
theorem C2_keyed_load_idempotent (table : List Quotes.QuoteRow)
    (rows : List Quotes.QuoteIn) (h1 : rows ≠ [])
    (h2 : ∀ m, Quotes.countId table m ≤ 1) :
    (Quotes.runLoad table (some rows) none).1 = Except.ok () ∧
    (Quotes.runLoad (Quotes.runLoad table (some rows) none).2.table
        (some rows) none).1 = Except.ok () ∧
    (Quotes.runLoad (Quotes.runLoad table (some rows) none).2.table
        (some rows) none).2.table =
      (Quotes.runLoad table (some rows) none).2.table ∧
    ∀ n, Quotes.hasId (Quotes.validRows rows) n = true →
      Quotes.countId (Quotes.runLoad table (some rows) none).2.table n = 1 := by
  rw [Quotes.runLoad_ok table rows h1]
  rw [show ((Except.ok (),
      (⟨Quotes.upsertList table (Quotes.validRows rows), [], false, true,
        Quotes.validRows rows⟩ : PG Quotes.QuoteRow)) :
      Except Unit Unit × PG Quotes.QuoteRow).2.table =
    Quotes.upsertList table (Quotes.validRows rows) from rfl]
  rw [Quotes.runLoad_ok _ rows h1]
  refine ⟨rfl, rfl, ?_, ?_⟩
  · exact Quotes.upsertList_idem table (Quotes.validRows rows)
  · intro n hn
    have hle := Quotes.countId_upsertList_le_one (Quotes.validRows rows)
      table h2 n
    rw [Quotes.hasId, List.any_eq_true] at hn
    obtain ⟨r, hr, hrid⟩ := hn
    have hrid' : r.id = n := by simpa using hrid
    have hasT := Quotes.hasId_upsertList_of_mem (Quotes.validRows rows)
      table r hr
    rw [hrid'] at hasT
    have hge := Quotes.one_le_countId_of_hasId _ n hasT
    omega

/-- C2 witness: loading a one-quote batch with id 42 into an empty table. -/
theorem C2_keyed_load_idempotent_witness :
    (Quotes.runLoad [] (some [⟨some 42, "life", "A", ""⟩]) none).1 =
        Except.ok () ∧
      Quotes.countId
        (Quotes.runLoad [] (some [⟨some 42, "life", "A", ""⟩]) none).2.table
        42 = 1 :=
  have h := C2_keyed_load_idempotent [] [⟨some 42, "life", "A", ""⟩]
    (by simp) (by intro m; simp [Quotes.countId])
  ⟨h.1, h.2.2.2 42 (by decide)⟩

/-- C10: in quotes.py load_data a row with a None id is never inserted —
the trace of executed INSERT statements is exactly the non-null-id
rows of the batch (each executed row stems from a some id), while those rows are applied
to the table and the transaction commits. -/
theorem C10_null_id_never_inserted (table : List Quotes.QuoteRow)
    (rows : List Quotes.QuoteIn) (h : rows ≠ []) :
    Quotes.runLoad table (some rows) none =
      (Except.ok (), ⟨Quotes.upsertList table (Quotes.validRows rows), [],
        false, true, Quotes.validRows rows⟩) ∧
    ∀ q ∈ Quotes.validRows rows, ∃ r ∈ rows, r.id = some q.id := by
  constructor
  · exact Quotes.runLoad_ok table rows h
  · intro q hq
    rw [Quotes.validRows, List.mem_filterMap] at hq
    obtain ⟨r, hr, hf⟩ := hq
    refine ⟨r, hr, ?_⟩
    cases hid : r.id with
    | none => rw [hid] at hf; simp at hf
    | some n =>
      rw [hid] at hf
      have hf' : (⟨n, r.content, r.author, r.tags⟩ : Quotes.QuoteRow) = q := by
        simpa using hf
      cases hf'
      rfl

/-- C10 witness: a two-row batch whose second row has a None id; only the
first row is executed and committed. -/
theorem C10_null_id_never_inserted_witness :
    Quotes.runLoad [] (some [⟨some 7, "c", "a", "t"⟩, ⟨none, "x", "y", "z"⟩])
        none =
      (Except.ok (), ⟨Quotes.upsertList []
          (Quotes.validRows [⟨some 7, "c", "a", "t"⟩, ⟨none, "x", "y", "z"⟩]),
        [], false, true,
        Quotes.validRows [⟨some 7, "c", "a", "t"⟩, ⟨none, "x", "y", "z"⟩]⟩) :=
  (C10_null_id_never_inserted []
    [⟨some 7, "c", "a", "t"⟩, ⟨none, "x", "y", "z"⟩] (by simp)).1

/-- C9: the append-only loaders insert again on a repeated batch.  Two runs
of the crypto loader over the same fetched batch append the stamped batch
twice, growing the table by 2*n rows; two runs of the self_confidence
loader over the same quote dictionary append two rows. -/
theorem C9_append_only_duplicates (tableC : List CryptoPrices.CryptoSinkRow)
    (batch : List CryptoPrices.CryptoRow) (now1 now2 : Nat) (h : batch ≠ [])
    (tableS : List SelfConfidence.SCRow) (q a t : JVal) :
    (CryptoPrices.runInsert
        (CryptoPrices.runInsert tableC batch now1 none).2.table
        batch now2 none).2.table =
      tableC ++ batch.map (CryptoPrices.stampRow now1)
             ++ batch.map (CryptoPrices.stampRow now2) ∧
    (CryptoPrices.runInsert
        (CryptoPrices.runInsert tableC batch now1 none).2.table
        batch now2 none).2.table.length =
      tableC.length + 2 * batch.length ∧
    (SelfConfidence.runLoad
        (SelfConfidence.runLoad tableS
          (JVal.jobj [("quote", q), ("author", a), ("type", t)]) false).2.table
        (JVal.jobj [("quote", q), ("author", a), ("type", t)]) false).2.table =
      tableS ++ [⟨q, a, t⟩] ++ [⟨q, a, t⟩] := by
  rw [CryptoPrices.runInsert_none tableC batch now1 h]
  rw [show ((Except.ok (),
      (⟨tableC ++ batch.map (CryptoPrices.stampRow now1), [], false, true,
        batch.map (CryptoPrices.stampRow now1)⟩ :
        PG CryptoPrices.CryptoSinkRow)) :
      Except Unit Unit × PG CryptoPrices.CryptoSinkRow).2.table =
    tableC ++ batch.map (CryptoPrices.stampRow now1) from rfl]
  rw [CryptoPrices.runInsert_none _ batch now2 h]
  rw [SelfConfidence.scLoad_ok tableS q a t]
  rw [show ((Except.ok (),
      (⟨tableS ++ [⟨q, a, t⟩], [], false, true, [⟨q, a, t⟩]⟩ :
        PG SelfConfidence.SCRow)) :
      Except Unit Unit × PG SelfConfidence.SCRow).2.table =
    tableS ++ [⟨q, a, t⟩] from rfl]
  rw [SelfConfidence.scLoad_ok _ q a t]
  refine ⟨by simp, ?_, by simp⟩
  simp [List.length_append]
  omega

/-- C9 witness: a one-coin batch loaded twice into an empty crypto table and
one quote loaded twice into an empty self_confidence table. -/
theorem C9_append_only_duplicates_witness :
    (CryptoPrices.runInsert
        (CryptoPrices.runInsert [] [⟨"BTC", JVal.jnum 50000, JVal.jnum 1⟩]
          10 none).2.table
        [⟨"BTC", JVal.jnum 50000, JVal.jnum 1⟩] 20 none).2.table.length =
      2 * ([⟨"BTC", JVal.jnum 50000, JVal.jnum 1⟩] :
        List CryptoPrices.CryptoRow).length :=
  have h := C9_append_only_duplicates []
    [⟨"BTC", JVal.jnum 50000, JVal.jnum 1⟩] 10 20 (by simp) []
    (JVal.jstr "q") (JVal.jstr "a") (JVal.jstr "t")
  by simpa using h.2.1

/-- C1 counterexample: the crypto loader insert_into_postgres, failing on
its first INSERT execution, propagates the exception with the connection
still open — so the claim that every loader releases the connection on
every exit path is false on this concrete run. -/
theorem C1_counterexample :
    (CryptoPrices.runInsert [] [⟨"BTC", JVal.jnum 1, JVal.jnum 2⟩] 0
        (some 0)).1 = Except.error () ∧
      (CryptoPrices.runInsert [] [⟨"BTC", JVal.jnum 1, JVal.jnum 2⟩] 0
        (some 0)).2.connOpen = true :=
  ⟨rfl, rfl⟩

/-- C1 amended: when a loader raises partway through inserting a batch, no
row of the batch is committed by any of the three loaders; the quotes and
healthcare loaders moreover release the connection on that path (and on
success), while the crypto loader releases the connection only on success
and leaves it open when an INSERT raises. -/
theorem C1_transaction_rollback_and_release
    (tq : List Quotes.QuoteRow) (rq : List Quotes.QuoteIn)
    (th dh : List Healthcare.HealthRecord)
    (tc : List CryptoPrices.CryptoSinkRow) (bc : List CryptoPrices.CryptoRow)
    (now i j k : Nat)
    (hi : i < (Quotes.validRows rq).length)
    (hj : j < dh.length) (hk : k < bc.length) :
    ((Quotes.runLoad tq (some rq) (some i)).2.table = tq ∧
      (Quotes.runLoad tq (some rq) (some i)).2.connOpen = false ∧
      (rq ≠ [] → (Quotes.runLoad tq (some rq) none).2.connOpen = false)) ∧
    ((Healthcare.runLoad th dh (some j)).1 = Except.error () ∧
      (Healthcare.runLoad th dh (some j)).2.table = th ∧
      (Healthcare.runLoad th dh (some j)).2.connOpen = false ∧
      (Healthcare.runLoad th dh none).2.connOpen = false) ∧
    ((CryptoPrices.runInsert tc bc now (some k)).1 = Except.error () ∧
      (CryptoPrices.runInsert tc bc now (some k)).2.table = tc ∧
      (CryptoPrices.runInsert tc bc now (some k)).2.connOpen = true) ∧
    (bc ≠ [] → (CryptoPrices.runInsert tc bc now none).2.connOpen = false) := by
  obtain ⟨t2, hq⟩ := Quotes.runLoad_fail tq rq i hi
  obtain ⟨t3, hh⟩ := Healthcare.runLoad_some th dh j hj
  obtain ⟨p, t4, hc⟩ := CryptoPrices.runInsert_some tc bc now k hk
  refine ⟨⟨?_, ?_, ?_⟩, ⟨?_, ?_, ?_, ?_⟩, ⟨?_, ?_, ?_⟩, ?_⟩
  · rw [hq]
  · rw [hq]
  · intro hne
    rw [Quotes.runLoad_ok tq rq hne]
  · rw [hh]
  · rw [hh]
  · rw [hh]
  · rw [Healthcare.runLoad_none th dh]
  · rw [hc]
  · rw [hc]
  · rw [hc]
  · intro hne
    rw [CryptoPrices.runInsert_none tc bc now hne]

/-- C1 witness: one-row batches failing at their first INSERT in each
loader, plus the successful runs of all three loaders, observing the
connection flag and the rolled-back table on each exit path. -/
theorem C1_transaction_rollback_and_release_witness :
    ((Quotes.runLoad [] (some [⟨some 1, "c", "a", "t"⟩]) (some 0)).2.table =
        [] ∧
      (Quotes.runLoad [] (some [⟨some 1, "c", "a", "t"⟩])
        (some 0)).2.connOpen = false ∧
      (Quotes.runLoad [] (some [⟨some 1, "c", "a", "t"⟩])
        none).2.connOpen = false) ∧
    ((Healthcare.runLoad []
        [⟨JVal.jnull, JVal.jnull, JVal.jnull, JVal.jnull, JVal.jnull,
          JVal.jnull, JVal.jnull, JVal.jnull, JVal.jnull, JVal.jnull, "",
          JVal.jnull, JVal.jnull, JVal.jnull, JVal.jnull, "", JVal.jnull⟩]
        (some 0)).1 = Except.error () ∧
      (Healthcare.runLoad []
        [⟨JVal.jnull, JVal.jnull, JVal.jnull, JVal.jnull, JVal.jnull,
          JVal.jnull, JVal.jnull, JVal.jnull, JVal.jnull, JVal.jnull, "",
          JVal.jnull, JVal.jnull, JVal.jnull, JVal.jnull, "", JVal.jnull⟩]
        (some 0)).2.connOpen = false ∧
      (Healthcare.runLoad []
        [⟨JVal.jnull, JVal.jnull, JVal.jnull, JVal.jnull, JVal.jnull,
          JVal.jnull, JVal.jnull, JVal.jnull, JVal.jnull, JVal.jnull, "",
          JVal.jnull, JVal.jnull, JVal.jnull, JVal.jnull, "", JVal.jnull⟩]
        none).2.connOpen = false) ∧
    (CryptoPrices.runInsert [] [⟨"BTC", JVal.jnum 1, JVal.jnum 2⟩] 5
        (some 0)).2.connOpen = true ∧
    (CryptoPrices.runInsert [] [⟨"BTC", JVal.jnum 1, JVal.jnum 2⟩] 5
        none).2.connOpen = false :=
  have h := C1_transaction_rollback_and_release [] [⟨some 1, "c", "a", "t"⟩]
    []
    [⟨JVal.jnull, JVal.jnull, JVal.jnull, JVal.jnull, JVal.jnull, JVal.jnull,
      JVal.jnull, JVal.jnull, JVal.jnull, JVal.jnull, "", JVal.jnull,
      JVal.jnull, JVal.jnull, JVal.jnull, "", JVal.jnull⟩]
    [] [⟨"BTC", JVal.jnum 1, JVal.jnum 2⟩] 5 0 0 0
    (by decide) (by decide) (by decide)
  ⟨⟨h.1.1, h.1.2.1, h.1.2.2 (by simp)⟩,
   ⟨h.2.1.1, h.2.1.2.2.1, h.2.1.2.2.2⟩,
   h.2.2.1.2.2, h.2.2.2 (by simp)⟩

/-- C7 counterexample: quotes.py load_data, whose single INSERT execution
raises, returns normally (the except block prints, rolls back and swallows
the exception) — refuting the claim that every fetch/load error is raised
to the caller. -/
theorem C7_counterexample :
    (Quotes.runLoad [] (some [⟨some 1, "c", "a", "t"⟩]) (some 0)).1 =
      Except.ok () :=
  rfl

/-- C7 amended: the healthcare loader, the crypto loader and the crypto
fetcher propagate their failures to the caller, but quotes.py swallows
errors: load_data returns normally after rolling back any insert failure,
and fetch_quote returns None on a network error. -/
theorem C7_error_propagation
    (th dh : List Healthcare.HealthRecord)
    (tc : List CryptoPrices.CryptoSinkRow) (bc : List CryptoPrices.CryptoRow)
    (tq : List Quotes.QuoteRow) (rq : List Quotes.QuoteIn)
    (now i j k : Nat)
    (hi : i < (Quotes.validRows rq).length)
    (hj : j < dh.length) (hk : k < bc.length) :
    (Healthcare.runLoad th dh (some j)).1 = Except.error () ∧
    (CryptoPrices.runInsert tc bc now (some k)).1 = Except.error () ∧
    CryptoPrices.fetch_crypto_prices HttpResult.netError = Except.error () ∧
    (Quotes.runLoad tq (some rq) (some i)).1 = Except.ok () ∧
    Quotes.fetch_quote HttpResult.netError = Except.ok none := by
  obtain ⟨t2, hq⟩ := Quotes.runLoad_fail tq rq i hi
  obtain ⟨t3, hh⟩ := Healthcare.runLoad_some th dh j hj
  obtain ⟨p, t4, hc⟩ := CryptoPrices.runInsert_some tc bc now k hk
  exact ⟨by rw [hh], by rw [hc], rfl, by rw [hq], rfl⟩

/-- C7 witness: the same concrete failing runs as for the transaction
claim, observing who raises and who swallows. -/
theorem C7_error_propagation_witness :
    (Healthcare.runLoad []
        [⟨JVal.jnull, JVal.jnull, JVal.jnull, JVal.jnull, JVal.jnull,
          JVal.jnull, JVal.jnull, JVal.jnull, JVal.jnull, JVal.jnull, "",
          JVal.jnull, JVal.jnull, JVal.jnull, JVal.jnull, "", JVal.jnull⟩]
        (some 0)).1 = Except.error () ∧
      (CryptoPrices.runInsert [] [⟨"BTC", JVal.jnum 1, JVal.jnum 2⟩] 5
        (some 0)).1 = Except.error () ∧
      (Quotes.runLoad [] (some [⟨some 2, "c", "a", "t"⟩]) (some 0)).1 =
        Except.ok () :=
  have h := C7_error_propagation []
    [⟨JVal.jnull, JVal.jnull, JVal.jnull, JVal.jnull, JVal.jnull, JVal.jnull,
      JVal.jnull, JVal.jnull, JVal.jnull, JVal.jnull, "", JVal.jnull,
      JVal.jnull, JVal.jnull, JVal.jnull, "", JVal.jnull⟩]
    [] [⟨"BTC", JVal.jnum 1, JVal.jnum 2⟩] [] [⟨some 2, "c", "a", "t"⟩]
    5 0 0 0 (by decide) (by decide) (by decide)
  ⟨h.1, h.2.1, h.2.2.2.1⟩

/-- Inversion for a successful Except bind: the first step succeeded and
the continuation succeeded on its value. -/
theorem except_bind_ok {α β : Type} {x : Except Unit α}
    {f : α → Except Unit β} {y : β} (h : x >>= f = Except.ok y) :
    ∃ a, x = Except.ok a ∧ f a = Except.ok y := by
  cases x with
  | ok a => exact ⟨a, rfl, h⟩
  | error e => simp [Bind.bind, Except.bind] at h

/-- C3 counterexample: quotes.py fetch_quote returns None normally on a
network error instead of failing — refuting the claim that every fetch
invocation either returns a batch or raises. -/
theorem C3_counterexample :
    Quotes.fetch_quote HttpResult.netError = Except.ok none :=
  rfl

/-- C3 amended: only the crypto fetcher upholds the fetch-result guarantee
(it fails on network errors, on 4xx/5xx statuses and on a body missing the
required top-level key, and any successful return is the non-empty
three-row batch).  The quotes fetcher instead swallows network and HTTP
errors into a None return, and the self_confidence fetcher returns the
body normally whatever the HTTP status. -/
theorem C3_fetch_result_guarantee :
    (CryptoPrices.fetch_crypto_prices HttpResult.netError =
        Except.error ()) ∧
    (∀ st body, 400 ≤ st →
      CryptoPrices.fetch_crypto_prices (HttpResult.response st body) =
        Except.error ()) ∧
    (∀ st body, st < 400 → getItem body "bitcoin" = Except.error () →
      CryptoPrices.fetch_crypto_prices (HttpResult.response st body) =
        Except.error ()) ∧
    (∀ resp rows, CryptoPrices.fetch_crypto_prices resp = Except.ok rows →
      rows.length = 3) ∧
    (Quotes.fetch_quote HttpResult.netError = Except.ok none) ∧
    (∀ st body, 400 ≤ st →
      Quotes.fetch_quote (HttpResult.response st body) = Except.ok none) ∧
    (∀ st body, SelfConfidence.fetch_quote (HttpResult.response st body) =
      Except.ok body) := by
  refine ⟨rfl, ?_, ?_, ?_, rfl, ?_, ?_⟩
  · intro st body hst
    simp [CryptoPrices.fetch_crypto_prices, hst]
  · intro st body hst hb
    have hst' : ¬ 400 ≤ st := by omega
    simp [CryptoPrices.fetch_crypto_prices, hst', hb, Bind.bind, Except.bind]
  · intro resp rows h
    cases resp with
    | netError => simp [CryptoPrices.fetch_crypto_prices] at h
    | response st body =>
      by_cases hst : 400 ≤ st
      · simp [CryptoPrices.fetch_crypto_prices, hst] at h
      · simp only [CryptoPrices.fetch_crypto_prices, if_neg hst] at h
        obtain ⟨btc, _, h⟩ := except_bind_ok h
        obtain ⟨busd, _, h⟩ := except_bind_ok h
        obtain ⟨bchg, _, h⟩ := except_bind_ok h
        obtain ⟨eth, _, h⟩ := except_bind_ok h
        obtain ⟨eusd, _, h⟩ := except_bind_ok h
        obtain ⟨echg, _, h⟩ := except_bind_ok h
        obtain ⟨bnb, _, h⟩ := except_bind_ok h
        obtain ⟨nusd, _, h⟩ := except_bind_ok h
        obtain ⟨nchg, _, h⟩ := except_bind_ok h
        have hrows :
            rows = [⟨"BTC", busd, bchg⟩, ⟨"ETH", eusd, echg⟩,
              ⟨"BNB", nusd, nchg⟩] := by
          cases h; rfl
        rw [hrows]; rfl
  · intro st body hst
    simp [Quotes.fetch_quote, hst]
  · intro st body
    rfl

/-- C3 witness: concrete instances — a 404 response, a 200 response whose
body lacks the bitcoin key, a well-formed 200 response producing the
three-row batch, a 500 quote response swallowed into None, and a 500
self_confidence response returned normally. -/
theorem C3_fetch_result_guarantee_witness :
    CryptoPrices.fetch_crypto_prices (HttpResult.response 404 JVal.jnull) =
        Except.error () ∧
      CryptoPrices.fetch_crypto_prices (HttpResult.response 200
        (JVal.jobj [])) = Except.error () ∧
      ([(⟨"BTC", JVal.jnum 50000, JVal.jnum 1⟩ : CryptoPrices.CryptoRow),
        ⟨"ETH", JVal.jnum 2000, JVal.jnum 2⟩,
        ⟨"BNB", JVal.jnum 300, JVal.jnum 3⟩] :
        List CryptoPrices.CryptoRow).length = 3 ∧
      Quotes.fetch_quote (HttpResult.response 500 JVal.jnull) =
        Except.ok none ∧
      SelfConfidence.fetch_quote (HttpResult.response 500 JVal.jnull) =
        Except.ok JVal.jnull :=
  have h := C3_fetch_result_guarantee
  ⟨h.2.1 404 JVal.jnull (by decide),
   h.2.2.1 200 (JVal.jobj []) (by decide) rfl,
   h.2.2.2.1 (HttpResult.response 200
      (JVal.jobj [("bitcoin", JVal.jobj [("usd", JVal.jnum 50000),
          ("usd_24h_change", JVal.jnum 1)]),
        ("ethereum", JVal.jobj [("usd", JVal.jnum 2000),
          ("usd_24h_change", JVal.jnum 2)]),
        ("binancecoin", JVal.jobj [("usd", JVal.jnum 300),
          ("usd_24h_change", JVal.jnum 3)])]))
     [⟨"BTC", JVal.jnum 50000, JVal.jnum 1⟩,
      ⟨"ETH", JVal.jnum 2000, JVal.jnum 2⟩,
      ⟨"BNB", JVal.jnum 300, JVal.jnum 3⟩] rfl,
   h.2.2.2.2.2.1 500 JVal.jnull (by decide),
   h.2.2.2.2.2.2 500 JVal.jnull⟩

/-- C8 counterexample: a record whose locations_raw is present and
non-empty but whose first location lacks the address key is dropped by the
per-record handler (KeyError from direct indexing), not kept with a null
field — and a batch holding only such a record makes the transform raise. -/
theorem C8_counterexample :
    Healthcare.flatten_record
        (JVal.jobj [("id", JVal.jnum 1),
          ("locations_raw", JVal.jarr [JVal.jobj []])]) = Except.error () ∧
      Healthcare.transform_data
        (JVal.jarr [JVal.jobj [("id", JVal.jnum 1),
          ("locations_raw", JVal.jarr [JVal.jobj []])]]) =
        Except.error () :=
  ⟨rfl, rfl⟩

/-- C8 amended: when the locations array itself is absent the record is
kept with null location fields (safe navigation applies at that level, and
here to the join fields, absent as well so that no unrelated error
interferes); but a present, non-empty locations array whose first element
lacks the address key excludes the whole record, as the counterexample
shows. -/
theorem C8_missing_nested_path (fs : List (String × JVal))
    (h1 : jlookup fs "locations_raw" = none)
    (h2 : jlookup fs "employment_type" = none)
    (h3 : jlookup fs "linkedin_org_locations" = none) :
    ∃ r, Healthcare.flatten_record (JVal.jobj fs) = Except.ok r ∧
      r.location_country = JVal.jnull ∧ r.location_locality = JVal.jnull ∧
      r.latitude = JVal.jnull ∧ r.longitude = JVal.jnull ∧
      Healthcare.transform_data (JVal.jarr [JVal.jobj fs]) =
        Except.ok [r] := by
  have hj : joinComma (JVal.jarr []) = Except.ok "" := rfl
  have hflat : Healthcare.flatten_record (JVal.jobj fs) =
      Except.ok ⟨(jlookup fs "id").getD JVal.jnull,
        (jlookup fs "date_posted").getD JVal.jnull,
        (jlookup fs "title").getD JVal.jnull,
        (jlookup fs "organization").getD JVal.jnull,
        (jlookup fs "organization_url").getD JVal.jnull,
        (jlookup fs "date_validthrough").getD JVal.jnull,
        JVal.jnull, JVal.jnull, JVal.jnull, JVal.jnull, "",
        (jlookup fs "url").getD JVal.jnull,
        (jlookup fs "linkedin_org_employees").getD JVal.jnull,
        (jlookup fs "linkedin_org_size").getD JVal.jnull,
        (jlookup fs "linkedin_org_industry").getD JVal.jnull, "",
        (jlookup fs "seniority").getD JVal.jnull⟩ := by
    simp [Healthcare.flatten_record, Healthcare.locField, Healthcare.locGeo,
      dotGet, dotGetD, h1, h2, h3, truthy, hj, Bind.bind, Except.bind,
      Pure.pure, Except.pure]
  refine ⟨_, hflat, rfl, rfl, rfl, rfl, ?_⟩
  simp [Healthcare.transform_data, hflat, Except.toOption]

/-- C8 witness: a record carrying only an id — no locations array — is kept
with all four location fields null. -/
theorem C8_missing_nested_path_witness :
    ∃ r, Healthcare.flatten_record (JVal.jobj [("id", JVal.jnum 5)]) =
        Except.ok r ∧
      r.location_country = JVal.jnull ∧ r.location_locality = JVal.jnull ∧
      r.latitude = JVal.jnull ∧ r.longitude = JVal.jnull ∧
      Healthcare.transform_data
          (JVal.jarr [JVal.jobj [("id", JVal.jnum 5)]]) =
        Except.ok [r] :=
  C8_missing_nested_path [("id", JVal.jnum 5)] rfl rfl rfl
